import Mathlib

/-!
Verification of the pyopencode agent loop against its specification.

The Python sources are shallowly embedded: strings are `List Char`, Python
list slices become explicit take/drop combinations with Python's negative
index semantics, exceptions become `Except`, and external effects (the LLM
provider, tool executors, the JSON parser, the interactive permission
prompt) are parameters of the embedded functions.
-/

set_option maxRecDepth 10000

/-- Python `str` values are embedded as lists of characters. -/
abbrev Str := List Char

/-- Last `n` elements of a list (Python `l[len-n:]`, clamped at the front). -/
def listTakeRight (n : Nat) (l : List α) : List α :=
  l.drop (l.length - n)

/-- All but the last `n` elements of a list (clamped). -/
def listDropRight (n : Nat) (l : List α) : List α :=
  l.take (l.length - n)

/-- Python slice `l[i:]` for an arbitrary (possibly negative) int index. -/
def pySliceFrom (i : Int) (l : List α) : List α :=
  if i < 0 then listTakeRight i.natAbs l else l.drop i.toNat

/-- Python slice `l[:i]` for an arbitrary (possibly negative) int index. -/
def pySliceTo (i : Int) (l : List α) : List α :=
  if i < 0 then listDropRight i.natAbs l else l.take i.toNat

/-- The characters Python's `str.splitlines` treats as line terminators. -/
def isLineBreak (c : Char) : Bool :=
  c = '\n' || c = '\r' || c = '\x0b' || c = '\x0c' ||
  c = Char.ofNat 0x1c || c = Char.ofNat 0x1d || c = Char.ofNat 0x1e ||
  c = Char.ofNat 0x85 || c = Char.ofNat 0x2028 || c = Char.ofNat 0x2029

/-- Helper for `splitlines`: `acc` is the current (reversed) line. -/
def splitlinesAux : List Char → List Char → List (List Char)
  | [], acc => if acc.isEmpty then [] else [acc.reverse]
  | '\r' :: '\n' :: rest, acc => acc.reverse :: splitlinesAux rest []
  | c :: rest, acc =>
    if isLineBreak c then acc.reverse :: splitlinesAux rest []
    else splitlinesAux rest (c :: acc)

/-- Python `str.splitlines()` (keepends omitted, as in the sources). -/
def splitlines (s : Str) : List Str :=
  splitlinesAux s []

/-- Whitespace characters for Python's default `str.strip()`. -/
def pyIsSpace (c : Char) : Bool :=
  c = ' ' || c = '\t' || c = '\n' || c = '\r' || c = '\x0b' || c = '\x0c' ||
  c = Char.ofNat 0x1c || c = Char.ofNat 0x1d || c = Char.ofNat 0x1e ||
  c = Char.ofNat 0x1f || c = Char.ofNat 0x85 || c = Char.ofNat 0xa0 ||
  c = Char.ofNat 0x1680 ||
  (Char.ofNat 0x2000 ≤ c && c ≤ Char.ofNat 0x200a) ||
  c = Char.ofNat 0x2028 || c = Char.ofNat 0x2029 ||
  c = Char.ofNat 0x202f || c = Char.ofNat 0x205f || c = Char.ofNat 0x3000

/-- Python `str.strip()`. -/
def pyStrip (s : Str) : Str :=
  ((s.dropWhile pyIsSpace).reverse.dropWhile pyIsSpace).reverse

/-- Python `str.endswith("\n")`. -/
def endsWithNewline (s : Str) : Bool :=
  s.getLast? = some '\n'

/-- Message roles, from `session/models.py` (`Role` literal). -/
inductive Role
  | system
  | user
  | assistant
  | tool
deriving DecidableEq, Repr

/-- An OpenAI-style tool-call echo stored on an assistant message:
the dict with keys id/type/function built in `runner.py` when persisting
an assistant turn. The `arguments` JSON text is kept as an opaque string. -/
structure ToolCallEcho where
  id : Str
  fname : Str
  args : Str
deriving DecidableEq, Repr

/-- `session/models.py` `Message`. `tool_calls` is `None` or a list in
Python; the embedding keeps the `Option` so truthiness is faithful. -/
structure Message where
  role : Role
  content : Option Str := none
  name : Option Str := none
  tool_call_id : Option Str := none
  tool_calls : Option (List ToolCallEcho) := none
  reasoning_content : Option Str := none
deriving DecidableEq, Repr

/-- Python truthiness of an optional list (`None` and `[]` are falsy). -/
def optListTruthy : Option (List α) → Bool
  | none => false
  | some [] => false
  | some (_ :: _) => true

/-- Python exceptions that escape the embedded functions. -/
inductive PyErr
  | unboundLocal (name : Str)
  | runtimeError (msg : Str)
deriving DecidableEq, Repr

/-- Python `str.lower()` (ASCII-faithful). -/
def pyLower (s : Str) : Str :=
  s.map Char.toLower

/-- The `SYSTEM_PROMPT` constant of `runner.py`. -/
def SYSTEM_PROMPT : Str :=
  ("You are pyopencode, a local coding agent.\nRules:\n- Use the provided tools to inspect files and run commands when needed.\n- Prefer: list/glob/grep/read before editing files.\n- When editing files, use deterministic line-range edits (edit/multiedit) or patch.\n- Do not fabricate file contents or command outputs: use tools.\n- Keep tool arguments minimal and correct.\n").toList

/-- `runner.py` `_clean_invalid_tool_messages`, as a pure function on the
message list: drop every tool message whose predecessor in the kept list
is not an assistant message with a truthy `tool_calls`. -/
def cleanInvalidToolMessagesAux : List Message → List Message → List Message
  | [], cleaned => cleaned
  | m :: rest, cleaned =>
    if m.role = .tool then
      match cleaned.getLast? with
      | none => cleanInvalidToolMessagesAux rest cleaned
      | some prev =>
        if prev.role = .assistant ∧ optListTruthy prev.tool_calls then
          cleanInvalidToolMessagesAux rest (cleaned ++ [m])
        else
          cleanInvalidToolMessagesAux rest cleaned
    else
      cleanInvalidToolMessagesAux rest (cleaned ++ [m])

/-- `runner.py` `_clean_invalid_tool_messages` applied to a session. -/
def cleanInvalidToolMessages (msgs : List Message) : List Message :=
  cleanInvalidToolMessagesAux msgs []

/-- `runner.py` `_assert_can_append_tool`: raises (here: returns an error)
unless the last session message is an assistant with truthy `tool_calls`
and the tool-call id is truthy. -/
def assertCanAppendTool (msgs : List Message) (tcid : Str) : Except PyErr Unit :=
  match msgs.getLast? with
  | none =>
    .error (.runtimeError ("Protocol violation: session empty before tool append".toList))
  | some last =>
    if ¬ (last.role = .assistant ∧ optListTruthy last.tool_calls) then
      .error (.runtimeError ("Protocol violation: tool message without preceding assistant tool_calls".toList))
    else if tcid = [] then
      .error (.runtimeError ("Protocol violation: tool message missing tool_call_id".toList))
    else
      .ok ()

/-- A parsed tool call inside an assistant turn (`session/models.py`
`ToolCall`); the JSON arguments stay an opaque string. -/
structure ToolCallRt where
  id : Str
  name : Str
  argsJson : Str
deriving DecidableEq, Repr

/-- `tools/base.py` `ToolResult`. -/
structure ToolResultM where
  content : Str
  is_error : Bool := false
deriving DecidableEq, Repr

/-- A registered tool as the runner sees it: its spec fields plus its
executor. `run` models `tool.execute` wrapped in the runner's
`try/except` (a raised exception is already converted into an
error-marked `ToolResult` by `runner.py`). -/
structure ToolImpl where
  name : Str
  permission_key : Str
  run : Str → ToolResultM

/-- The head+tail truncation marker used by `runner.py` for long tool
results (`head + "\n\n... (truncated) ...\n\n" + tail`). -/
def TRUNC_MARKER : Str :=
  ("\n\n... (truncated) ...\n\n").toList

/-- `runner.py` lines 583-590: truncate an overly-long tool reply to
`head = content[:cap // 2]` and `tail = content[-cap // 2:]` around the
marker. Note `-cap // 2` in Python is `(-cap) // 2` (floor division). -/
def truncate_tool_result (cap : Nat) (content : Str) : Str :=
  if cap < content.length then
    content.take (cap / 2) ++ TRUNC_MARKER ++ pySliceFrom (Int.fdiv (-(cap : Int)) 2) content
  else
    content

/-- Build the tool-role reply message the runner appends. -/
def toolMsg (c : Str) (tcid : Str) : Message :=
  { role := .tool, content := some c, tool_call_id := some tcid }

/-- The ExecuteTools phase of `run_agent_once` (`runner.py` lines
519-602): process the model's tool calls sequentially; for each call
resolve the tool (`lookup`), consult the permission gate
(`decideAllow`, modelling `ctx.permissions.decide` including the
interactive ask step), execute, truncate long replies with the policy
cap, and append a tool-role message after `_assert_can_append_tool`. -/
def executeTools (lookup : Str → Option ToolImpl) (decideAllow : Str → Str → Bool)
    (cap : Nat) : List Message → List ToolCallRt → Except PyErr (List Message)
  | msgs, [] => .ok msgs
  | msgs, tc :: rest =>
    match lookup tc.name with
    | none =>
      match assertCanAppendTool msgs tc.id with
      | .error e => .error e
      | .ok _ =>
        executeTools lookup decideAllow cap
          (msgs ++ [toolMsg (("Tool ".toList) ++ tc.name ++ (" not found.".toList)) tc.id]) rest
    | some tool =>
      if ¬ decideAllow tool.permission_key tool.name then
        match assertCanAppendTool msgs tc.id with
        | .error e => .error e
        | .ok _ =>
          executeTools lookup decideAllow cap
            (msgs ++ [toolMsg (("Tool ".toList) ++ tool.name ++ (" was denied by user permissions.".toList)) tc.id]) rest
      else
        let res := tool.run tc.argsJson
        let content := truncate_tool_result cap res.content
        match assertCanAppendTool msgs tc.id with
        | .error e => .error e
        | .ok _ =>
          executeTools lookup decideAllow cap (msgs ++ [toolMsg content tc.id]) rest

/-- Where the prelude of `run_agent_once` hands over to the step loop. -/
inductive LoopEntry
  | enteredLoop (msgs : List Message)
deriving Repr

/-- `runner.py` `run_agent_once`, lines 279-316: session sanitation, the
agent `max_steps` override, ensuring a system prompt (appended at the
end of the list), the optional crash-recovery resume (modelled by the
`resumeFn` parameter, with the defensive re-clean of line 302), the user
append, and then lines 313-314.  Line 314 evaluates
`("deepseek" in provider_name) or ("deepseek" in model_name)`, but the
local `model_name` is first assigned only at line 325 inside the loop
body, so unless the first disjunct short-circuits to `True`, Python
raises `UnboundLocalError` here and the loop (represented by
`LoopEntry.enteredLoop`) is never reached. -/
def run_agent_once (resumeFn : List Message → Except PyErr (List Message))
    (agentMaxSteps : Option Nat) (provider_name : Str) (session : List Message)
    (user_prompt : Option Str) (max_steps : Nat) (resume : Bool) :
    Except PyErr LoopEntry :=
  let s1 := cleanInvalidToolMessages session
  let _msteps := agentMaxSteps.getD max_steps
  let s2 := if s1.any (fun m => m.role == Role.system) then s1
            else s1 ++ [{ role := .system, content := some SYSTEM_PROMPT }]
  match (if resume then (resumeFn s2).map cleanInvalidToolMessages else .ok s2) with
  | .error e => .error e
  | .ok s3 =>
    let s4 := match user_prompt with
      | some up => s3 ++ [{ role := Role.user, content := some up }]
      | none => s3
    let pn := pyLower provider_name
    if ("deepseek").toList <:+: pn then
      .ok (.enteredLoop s4)
    else
      .error (.unboundLocal (("model_name").toList))

/-- Reserved system-injection names from `compaction/builder.py`. -/
def SUMMARY_NAME : Str := ("pyopencode_summary").toList

/-- `compaction/builder.py` `SKILL_NAME`. -/
def SKILL_NAME : Str := ("pyopencode_skill").toList

/-- `compaction/builder.py` `RULES_NAME`. -/
def RULES_NAME : Str := ("pyopencode_rules").toList

/-- `compaction/builder.py` `AGENT_NAME`. -/
def AGENT_NAME : Str := ("pyopencode_agent").toList

/-- `compaction/policy.py` `CompactionPolicy` (all knobs are counts). -/
structure CompactionPolicy where
  max_messages : Nat := 45
  summarize_when_over : Nat := 60
  max_tool_result_chars : Nat := 12000
  max_message_chars : Nat := 20000
deriving DecidableEq, Repr

/-- The `_truncate_text` helper nested in `build_prompt_messages`:
keep `text[:half]` and `text[-half:]` with `half = max(1, max_chars // 2)`
around `"\n\n" + marker + "\n\n"` (default marker `"... (truncated) ..."`,
so the glue equals `TRUNC_MARKER`). -/
def builderTruncateText (max_chars : Nat) (text : Str) : Str :=
  if max_chars = 0 ∨ text.length ≤ max_chars then text
  else
    let half := max 1 (max_chars / 2)
    text.take half ++ (("\n\n").toList ++ ("... (truncated) ...").toList ++ ("\n\n").toList)
      ++ listTakeRight half text

/-- Is this message a summary message (`role == "system" and
name == SUMMARY_NAME`)? -/
def isSummaryMsg (m : Message) : Bool :=
  m.role == Role.system && m.name == some SUMMARY_NAME

/-- Is this a system-role message (`m.role == "system"`)? -/
def isSystemB (m : Message) : Bool :=
  m.role == Role.system

/-- `build_prompt_messages` steps 1-3: prepend the skill / rules / agent
system injections.  `skill` models `maybe_load_skill(cwd)`. -/
def stagePrepend (ensure_skill : Bool) (skill rules_text agent_prompt : Option Str)
    (msgs : List Message) : List Message :=
  let msgs1 :=
    if ensure_skill then
      match skill with
      | some sk =>
        if sk ≠ [] ∧ ¬ msgs.any (fun m => m.role == Role.system && m.name == some SKILL_NAME) then
          ({ role := .system, name := some SKILL_NAME,
             content := some ((("Project SKILL.md:\n\n").toList) ++ sk) } : Message) :: msgs
        else msgs
      | none => msgs
    else msgs
  let msgs2 :=
    match rules_text with
    | some rt =>
      if rt ≠ [] ∧ pyStrip rt ≠ [] then
        ({ role := .system, name := some RULES_NAME,
           content := some ((("Rules:\n\n").toList) ++ pyStrip rt) } : Message) :: msgs1
      else msgs1
    | none => msgs1
  match agent_prompt with
  | some ap =>
    if ap ≠ [] ∧ pyStrip ap ≠ [] then
      ({ role := .system, name := some AGENT_NAME,
         content := some (pyStrip ap) } : Message) :: msgs2
    else msgs2
  | none => msgs2

/-- `build_prompt_messages` step 5: when the conversation has at least
`summarize_when_over` messages, split into `head = msgs[:-max_messages]`
and `tail = msgs[-max_messages:]`, strip old summaries from the head and,
if at least 8 messages remain, replace the head by one summary message
produced by the summarizer (an LLM call, modelled by the `summarizer`
parameter).  The `summary_idx` scan of builder.py lines 84-88 is dead
code (its result is never used) and is omitted. -/
def stageSummarize (summarizer : List Message → Str) (policy : CompactionPolicy)
    (msgs : List Message) : List Message × Option Message :=
  if policy.summarize_when_over ≤ msgs.length then
    let tail := pySliceFrom (-(policy.max_messages : Int)) msgs
    let head := pySliceTo (-(policy.max_messages : Int)) msgs
    let head_to_sum := head.filter (fun m => ! isSummaryMsg m)
    if 8 ≤ head_to_sum.length then
      let newSummary : Message :=
        { role := .system, name := some SUMMARY_NAME, content := some (summarizer head_to_sum) }
      (newSummary :: tail, some newSummary)
    else (msgs, none)
  else (msgs, none)

/-- `build_prompt_messages` step 6 (hard cap): when over `max_messages`,
keep every system message and slice the non-system messages with
`kept_other[-(max_messages - len(kept_system)):]` (a Python slice whose
index may be zero or positive when system messages use up the budget). -/
def stageCap (policy : CompactionPolicy) (msgs : List Message) : List Message :=
  if policy.max_messages < msgs.length then
    let kept_system := msgs.filter isSystemB
    let kept_other := msgs.filter (fun m => ! isSystemB m)
    kept_system ++ pySliceFrom ((kept_system.length : Int) - (policy.max_messages : Int)) kept_other
  else msgs

/-- `build_prompt_messages` step 7 (per-message safety): truncate content
to `max_message_chars`, and for tool messages to
`min(max_message_chars, max_tool_result_chars)`. -/
def truncMsg (policy : CompactionPolicy) (m : Message) : Message :=
  match m.content with
  | none => m
  | some c =>
    let limit := if m.role = .tool then min policy.max_message_chars policy.max_tool_result_chars
                 else policy.max_message_chars
    if limit < c.length then { m with content := some (builderTruncateText limit c) } else m

/-- `compaction/builder.py` `build_prompt_messages` up to the final
per-provider serialization (`to_openai`, a per-message field renaming
that neither drops nor reorders messages).  Returns the built message
list and the optional new summary message. -/
def build_prompt_messages (ensure_skill : Bool) (skill rules_text agent_prompt : Option Str)
    (summarizer : List Message → Str) (policy : CompactionPolicy)
    (session_messages : List Message) : List Message × Option Message :=
  let msgs1 := stagePrepend ensure_skill skill rules_text agent_prompt session_messages
  let sres := stageSummarize summarizer policy msgs1
  let msgs3 := stageCap policy sres.1
  (msgs3.map (truncMsg policy), sres.2)

/-- `tools/permissions.py` `Decision`. -/
inductive Decision
  | allow
  | ask
  | deny
deriving DecidableEq, Repr

/-- `tools/permissions.py` `PermissionRule` (`match` field renamed to
`rmatch`; `match` is a Lean keyword). -/
structure PermissionRule where
  rmatch : Str
  decision : Decision
deriving DecidableEq, Repr

/-- `tools/permissions.py` `PermissionConfig`: the `defaults` dict is
modelled as a partial map. -/
structure PermissionConfig where
  defaults : Str → Option Decision
  rules : List PermissionRule

/-- `PermissionConfig._match_rules`: scan the rules in order, remembering
the decision of the last matching rule.  A `tool:<glob>` rule matches the
tool name only; any other glob matches the permission class or the tool
name.  The glob matcher is a parameter (`fnmatch` in the source); the
executable `fnmatchB` below instantiates it. -/
def matchRules (fnm : Str → Str → Bool) (rules : List PermissionRule)
    (permission_key tool_name : Str) : Option Decision :=
  rules.foldl (fun acc rule =>
    if ("tool:").toList <+: rule.rmatch then
      (if fnm tool_name (rule.rmatch.drop 5) then some rule.decision else acc)
    else
      (if fnm permission_key rule.rmatch || fnm tool_name rule.rmatch then some rule.decision
       else acc)) none

/-- `PermissionConfig.decide`: last matching rule wins, otherwise
`defaults.get(permission_key, defaults.get(tool_name, "ask"))`. -/
def PermissionConfig.decide (fnm : Str → Str → Bool) (cfg : PermissionConfig)
    (permission_key tool_name : Str) : Decision :=
  match matchRules fnm cfg.rules permission_key tool_name with
  | some d => d
  | none => ((cfg.defaults permission_key).getD ((cfg.defaults tool_name).getD .ask))

/-- Scan a glob character class for its closing `]`. -/
def splitClassScan : List Char → List Char → Option (List Char × List Char)
  | [], _ => none
  | ']' :: t, acc => some (acc.reverse, t)
  | c :: t, acc => splitClassScan t (c :: acc)

/-- Parse the body of a glob `[...]` class: optional leading `!`
negation, a `]` directly after it is a literal member.  Returns
`(negated, body, rest-of-pattern)`; `none` when the class is unclosed
(fnmatch then treats `[` literally). -/
def splitClass (ps : List Char) : Option (Bool × List Char × List Char) :=
  let step : Bool × List Char := match ps with
    | '!' :: t => (true, t)
    | _ => (false, ps)
  match step.2 with
  | ']' :: t =>
    (match splitClassScan t [']'] with
     | some (body, rest) => some (step.1, body, rest)
     | none => none)
  | other =>
    (match splitClassScan other [] with
     | some (body, rest) => some (step.1, body, rest)
     | none => none)

/-- Does a character match a glob class body (`a-z` ranges, literals)? -/
def classMatch : List Char → Char → Bool
  | [], _ => false
  | a :: '-' :: b :: rest, c => (a ≤ c && c ≤ b) || classMatch rest c
  | a :: rest, c => (a == c) || classMatch rest c

/-- Fuel-indexed core of the `fnmatch.fnmatch` glob matcher
(`*`, `?`, `[...]`, literals; POSIX case behaviour). -/
def fnmatchAux : Nat → List Char → List Char → Bool
  | 0, _, _ => false
  | _ + 1, name, [] => name.isEmpty
  | fuel + 1, name, '*' :: ps =>
    fnmatchAux fuel name ps ||
      (match name with
       | [] => false
       | _ :: ns => fnmatchAux fuel ns ('*' :: ps))
  | fuel + 1, name, '?' :: ps =>
    (match name with
     | [] => false
     | _ :: ns => fnmatchAux fuel ns ps)
  | fuel + 1, name, '[' :: ps =>
    (match splitClass ps with
     | some (neg, body, rest) =>
       (match name with
        | [] => false
        | c :: ns => (neg != classMatch body c) && fnmatchAux fuel ns rest)
     | none =>
       (match name with
        | [] => false
        | c :: ns => (c == '[') && fnmatchAux fuel ns ps))
  | fuel + 1, name, p :: ps =>
    (match name with
     | [] => false
     | c :: ns => (p == c) && fnmatchAux fuel ns ps)

/-- `fnmatch.fnmatch(name, pat)`: each matcher step consumes at least one
character of the name or the pattern, so this fuel suffices. -/
def fnmatchB (name pat : Str) : Bool :=
  fnmatchAux (name.length + pat.length + 1) name pat

/-- Split a path string into (is-absolute, components), dropping the
empty and `.` components exactly as `pathlib.Path` does. -/
def parsePath (s : Str) : Bool × List Str :=
  let isAbs := match s with
    | '/' :: _ => true
    | _ => false
  (isAbs, (s.splitOn '/').filter (fun c => c ≠ [] ∧ c ≠ [('.' : Char)]))

/-- Lexical `Path.resolve()` on components: `..` pops (and is dropped at
the root, as `resolve` does); symbolic links are outside this model. -/
def normalizeComponents (comps : List Str) : List Str :=
  comps.foldl (fun acc c => if c = ("..").toList then acc.dropLast else acc ++ [c]) []

/-- `util/fs.py` `resolve_path`: resolve relative paths against `cwd`,
resolve absolute paths as-is, then require the result to be inside
`cwd.resolve()` (`p.relative_to` succeeds exactly when the resolved
cwd components are a prefix of the resolved path components), raising
`FsError` otherwise.  `cwd` is the context's absolute working directory,
given as components. -/
def resolve_path (cwd : List Str) (path_str : Str) : Except Str (List Str) :=
  let pr := parsePath path_str
  let p := if pr.1 then normalizeComponents pr.2 else normalizeComponents (cwd ++ pr.2)
  let cwdR := normalizeComponents cwd
  if cwdR <+: p then .ok p
  else .error ((("Path escapes working directory: ").toList) ++ path_str)

/-- The line loop of `SessionStore.open` (`session/store.py` lines
32-41): for each line of the file, skip it when blank
(`not line.strip()`), otherwise parse it (`json.loads` +
`Message(**obj)`, modelled by the `parse` parameter, `none` when that
raises) and keep the parsed messages in order. -/
def loadSessionLines (parse : Str → Option Message) (lines : List Str) : List Message :=
  lines.filterMap (fun line => if pyStrip line = [] then none else parse line)

/-- `SessionStore.open` applied to a session file's text
(`path.read_text().splitlines()` feeding the line loop). -/
def sessionOpenMessages (parse : Str → Option Message) (fileText : Str) : List Message :=
  loadSessionLines parse (splitlines fileText)

/-- `tools/builtin_tools/file_edit.py` `EditFileTool.execute`, after path
resolution and the existence check, as a function from the file's text to
the new text (`.ok`) or the error result (`.error`, in which case the
source returns before `write_text`, leaving the file unchanged):
`lines = text.splitlines()`; the range is invalid when `start < 1`,
`end < start` or `start > len(lines) + 1`; otherwise `end` is clamped to
`len(lines)` and the file is rebuilt as
`"\n".join(before + new_lines + after)` plus the original trailing
newline when there was one. -/
def edit_execute (text : Str) (start endl : Int) (new_text : Str) : Except Str Str :=
  let lines := splitlines text
  if start < 1 ∨ endl < start ∨ (lines.length : Int) + 1 < start then
    .error ((("Invalid line range ").toList) ++ (toString start).toList ++ (("-").toList)
      ++ (toString endl).toList ++ ((" for file with ").toList)
      ++ (toString lines.length).toList ++ ((" lines.").toList))
  else
    let e2 : Int := min endl (lines.length : Int)
    let before := lines.take (start - 1).toNat
    let after := lines.drop e2.toNat
    let new_lines := splitlines new_text
    let merged := before ++ new_lines ++ after
    .ok (List.intercalate (['\n']) merged ++ (if endsWithNewline text then ['\n'] else []))

/-- One requested line-range edit of the `multiedit` tool. -/
structure EditSpec where
  start_line : Int
  end_line : Int
  new_text : Str
deriving DecidableEq, Repr

/-- The `(start_line, end_line)` ranges of an edits list
(`file_multiedit.py` line 42). -/
def editRanges (edits : List EditSpec) : List (Int × Int) :=
  edits.map (fun e => (e.start_line, e.end_line))

/-- `ranges == sorted(ranges, key=lambda x: x[0])`: a list equals its
stable sort by first component exactly when the first components are
non-decreasing. -/
def nondecreasingByFirst : List (Int × Int) → Bool
  | [] => true
  | [_] => true
  | a :: b :: t => (decide (a.1 ≤ b.1)) && nondecreasingByFirst (b :: t)

/-- The consecutive-overlap scan of `file_multiedit.py` lines 45-47:
passes when every consecutive pair satisfies `e1 < s2`. -/
def noConsecutiveOverlap : List (Int × Int) → Bool
  | [] => true
  | [_] => true
  | a :: b :: t => (decide (a.2 < b.1)) && noConsecutiveOverlap (b :: t)

/-- The bottom-up application loop of `MultiEditFileTool.execute` (the
edits arrive already reversed).  An error carries the error message and
the file content at the moment of the failure. -/
def multieditApply : Str → List EditSpec → Except (Str × Str) Str
  | txt, [] => .ok txt
  | txt, e :: rest =>
    match edit_execute txt e.start_line e.end_line e.new_text with
    | .error m => .error (m, txt)
    | .ok t2 => multieditApply t2 rest

/-- `tools/builtin_tools/file_multiedit.py` `MultiEditFileTool.execute`
as a function from the target file's text: validate that the edits list
is non-empty, sorted by start line, and free of consecutive overlaps,
then apply the edits bottom-up through the edit tool.  A validation
error is raised before any write, so it carries the unchanged text. -/
def multiedit_execute (text : Str) (edits : List EditSpec) : Except (Str × Str) Str :=
  if edits.isEmpty then .error ((("edits must be a non-empty list").toList), text)
  else if ¬ nondecreasingByFirst (editRanges edits) then
    .error ((("edits must be sorted by start_line").toList), text)
  else if ¬ noConsecutiveOverlap (editRanges edits) then
    .error ((("edits must not overlap").toList), text)
  else multieditApply text edits.reverse

/-- Two inclusive line ranges overlap when their intersection is
non-empty. -/
def rangeOverlap (a b : Int × Int) : Prop :=
  max a.1 b.1 ≤ min a.2 b.2

/-- Every tool-role message in the list is immediately preceded by an
assistant message with a truthy `tool_calls` (in particular no tool
message comes first). -/
def toolRepliesWellPlaced (l : List Message) : Prop :=
  (∀ m, l.head? = some m → m.role ≠ .tool) ∧
  List.Chain' (fun a b => b.role = .tool → (a.role = .assistant ∧ optListTruthy a.tool_calls)) l

/-- The non-system messages of a list, in order. -/
def nonSystemMsgs (l : List Message) : List Message :=
  l.filter (fun m => ! isSystemB m)

/-- The system messages of a list, in order. -/
def systemMsgs (l : List Message) : List Message :=
  l.filter isSystemB

/-- How many system-role messages a list contains. -/
def systemCount (l : List Message) : Nat :=
  (l.filter isSystemB).length

/-- A small compaction policy for the C4 counterexample
(`max_messages = 3`, summarization not triggered). -/
def c4Policy : CompactionPolicy :=
  { max_messages := 3, summarize_when_over := 100 }

/-- Four short messages for the C4 counterexample: one system message
and three user messages. -/
def c4Msgs : List Message :=
  [{ role := .system, content := some (("s").toList) },
   { role := .user, content := some (("1").toList) },
   { role := .user, content := some (("2").toList) },
   { role := .user, content := some (("3").toList) }]

/-- C1: the claim says `run_agent_once` always returns a string (final
answer or terminal error text) and never propagates an exception.  The
code violates this: for every invocation whose provider name does not
contain `"deepseek"` (the default provider name is `"openai"`), line 314
of `runner.py` evaluates the local `model_name` before its first
assignment (line 325, inside the loop body), so Python raises
`UnboundLocalError` and nothing is returned.  Shown here for
`resume = False`; with resume the same line is reached after the resume
phase (which can itself raise). -/
theorem C1_run_agent_once_raises_unbound_local
    (resumeFn : List Message → Except PyErr (List Message))
    (agentMaxSteps : Option Nat) (provider_name : Str) (session : List Message)
    (user_prompt : Option Str) (max_steps : Nat)
    (h : ¬ ("deepseek").toList <:+: pyLower provider_name) :
    run_agent_once resumeFn agentMaxSteps provider_name session user_prompt max_steps false
      = .error (.unboundLocal (("model_name").toList)) := by
  have h' : ¬ ['d', 'e', 'e', 'p', 's', 'e', 'e', 'k'] <:+: pyLower provider_name := by
    simpa using h
  simp [run_agent_once, h']

/-- Witness for C1 at a concrete invocation (default provider name
`"openai"`, fresh session, prompt `"hello"`). -/
theorem C1_witness :
    run_agent_once (fun s => .ok s) none (("openai").toList) []
      (some (("hello").toList)) 20 false
      = .error (.unboundLocal (("model_name").toList)) :=
  C1_run_agent_once_raises_unbound_local _ _ _ _ _ _ (by decide)

/-- C2: the claim says ExecuteTools appends a tool-role reply for every
tool call of the assistant turn, including turns with two or more calls.
Evidence of the code bug: with two calls (here both naming a missing
tool, the simplest per-call branch), appending the second reply fails,
because `_assert_can_append_tool` requires the *last* persisted message
to be the assistant with tool_calls, but after the first reply the last
message is that tool reply — so `run_agent_once` raises RuntimeError
instead of answering each call. -/
theorem C2_second_tool_reply_raises :
    executeTools (fun _ => none) (fun _ _ => true) 12000
      [{ role := .assistant, content := none,
         tool_calls := some [ToolCallEcho.mk (("t1").toList) (("missing_tool").toList) [],
                             ToolCallEcho.mk (("t2").toList) (("missing_tool").toList) []] }]
      [ToolCallRt.mk (("t1").toList) (("missing_tool").toList) [],
       ToolCallRt.mk (("t2").toList) (("missing_tool").toList) []]
      = .error (.runtimeError
          (("Protocol violation: tool message without preceding assistant tool_calls").toList)) := by
  rfl

theorem toolRepliesWellPlaced_append (l : List Message) (m : Message)
    (hl : toolRepliesWellPlaced l)
    (hm : m.role = .tool →
      ∃ prev, l.getLast? = some prev ∧ prev.role = .assistant ∧ optListTruthy prev.tool_calls) :
    toolRepliesWellPlaced (l ++ [m]) := by
  obtain ⟨hhead, hchain⟩ := hl
  constructor
  · intro x hx
    cases l with
    | nil =>
      simp at hx
      subst hx
      intro hrole
      obtain ⟨prev, hprev, -⟩ := hm hrole
      simp at hprev
    | cons a t =>
      simp at hx
      subst hx
      exact hhead a rfl
  · rw [List.chain'_append]
    refine ⟨hchain, List.chain'_singleton m, ?_⟩
    intro x hx y hy hrole
    simp at hy
    subst hy
    obtain ⟨prev, hprev, hpa, hpt⟩ := hm hrole
    rw [hx] at hprev
    cases hprev
    exact ⟨hpa, hpt⟩

theorem cleanInvalidToolMessagesAux_wellPlaced :
    ∀ (msgs cleaned : List Message), toolRepliesWellPlaced cleaned →
      toolRepliesWellPlaced (cleanInvalidToolMessagesAux msgs cleaned) := by
  intro msgs
  induction msgs with
  | nil => intro cleaned h; exact h
  | cons m rest ih =>
    intro cleaned h
    by_cases hrole : m.role = .tool
    · rw [cleanInvalidToolMessagesAux, if_pos hrole]
      cases hlast : cleaned.getLast? with
      | none => exact ih cleaned h
      | some prev =>
        show toolRepliesWellPlaced
          (if prev.role = Role.assistant ∧ optListTruthy prev.tool_calls = true then
            cleanInvalidToolMessagesAux rest (cleaned ++ [m])
          else cleanInvalidToolMessagesAux rest cleaned)
        split_ifs with hok
        · exact ih _ (toolRepliesWellPlaced_append cleaned m h
            (fun _ => ⟨prev, hlast, hok.1, hok.2⟩))
        · exact ih cleaned h
    · rw [cleanInvalidToolMessagesAux, if_neg hrole]
      exact ih _ (toolRepliesWellPlaced_append cleaned m h (fun hc => absurd hc hrole))

/-- C3 (amended): after `_clean_invalid_tool_messages` runs, every
remaining tool-role message is immediately preceded by an assistant
message with a non-empty `tool_calls` list.  The tool-call-id part of
the original claim is false (see the counterexample): the sanitizer
never inspects `tool_call_id`, so a tool message without one is kept
whenever it is properly preceded. -/
theorem C3_clean_leaves_tool_replies_well_placed (msgs : List Message) :
    toolRepliesWellPlaced (cleanInvalidToolMessages msgs) :=
  cleanInvalidToolMessagesAux_wellPlaced msgs []
    (And.intro (fun _ hm => nomatch hm) List.chain'_nil)

/-- C3 counterexample: a persisted tool message that lacks a
`tool_call_id` but does follow an assistant with tool calls survives the
sanitizer, so not every remaining tool-role message has a non-empty
tool-call-id (and the sanitizer does not drop messages for lacking
one). -/
theorem C3_counterexample :
    ¬ (∀ m ∈ cleanInvalidToolMessages
        [{ role := .assistant, content := none,
           tool_calls := some [ToolCallEcho.mk (("x1").toList) (("read").toList) []] },
         { role := .tool, content := some (("orphan").toList), tool_call_id := none }],
        m.role = .tool → optListTruthy m.tool_call_id = true) := by
  decide

/-- C5 counterexample: a tool reply of 11 characters against the policy
cap 10 is truncated to a 33-character result (head 5 + marker 23 + tail
5), so the stored content's length exceeds `max_tool_result_chars`: the
cap is not respected. -/
theorem C5_counterexample :
    10 < (("abcdefghijk").toList).length ∧
    10 < (truncate_tool_result 10 (("abcdefghijk").toList)).length := by
  decide

theorem listTakeRight_length (n : Nat) (l : List α) :
    (listTakeRight n l).length = min n l.length := by
  simp [listTakeRight]
  omega

/-- C5 (amended): whenever a tool reply longer than the policy cap is
truncated, the stored content is exactly
`head ++ marker ++ tail` with `head = content[:cap // 2]` and
`tail` the last `(cap + 1) / 2` characters, and its length is exactly
`cap + 23`: it exceeds the cap by precisely the 23-character truncation
marker (the cap bounds head plus tail, not the marker). -/
theorem C5_truncation_shape (cap : Nat) (content : Str)
    (hcap : 1 ≤ cap) (hlen : cap < content.length) :
    truncate_tool_result cap content
      = content.take (cap / 2) ++ TRUNC_MARKER ++ listTakeRight ((cap + 1) / 2) content ∧
    (truncate_tool_result cap content).length = cap + 23 := by
  have hfd : Int.fdiv (-(cap : Int)) 2 = (-(cap : Int)) / 2 :=
    Int.fdiv_eq_ediv _ (by norm_num)
  have hneg : Int.fdiv (-(cap : Int)) 2 < 0 := by
    rw [hfd]; omega
  have habs : (Int.fdiv (-(cap : Int)) 2).natAbs = (cap + 1) / 2 := by
    rw [hfd]; omega
  have hslice : pySliceFrom (Int.fdiv (-(cap : Int)) 2) content
      = listTakeRight ((cap + 1) / 2) content := by
    rw [pySliceFrom, if_pos hneg, habs]
  have hshape : truncate_tool_result cap content
      = content.take (cap / 2) ++ TRUNC_MARKER ++ listTakeRight ((cap + 1) / 2) content := by
    rw [truncate_tool_result, if_pos hlen, hslice]
  refine ⟨hshape, ?_⟩
  rw [hshape]
  have hmark : TRUNC_MARKER.length = 23 := by decide
  simp [List.length_take, listTakeRight_length, hmark]
  omega

/-- Witness for C5 at `cap = 4`, `content = "abcde"`. -/
theorem C5_witness :
    truncate_tool_result 4 (("abcde").toList)
      = (("abcde").toList).take (4 / 2) ++ TRUNC_MARKER
        ++ listTakeRight ((4 + 1) / 2) (("abcde").toList) ∧
    (truncate_tool_result 4 (("abcde").toList)).length = 4 + 23 :=
  C5_truncation_shape 4 (("abcde").toList) (by decide) (by decide)

/-- C6 counterexample: on a 2-line file, an edit whose `end_line = 3`
extends beyond EOF yet does NOT fail: the edit tool clamps `end` to the
line count, succeeds, and changes the file. -/
theorem C6_counterexample :
    (splitlines (("a\nb\n").toList)).length = 2 ∧
    edit_execute (("a\nb\n").toList) 2 3 (("X").toList) = .ok (("a\nX\n").toList) ∧
    (("a\nX\n").toList) ≠ (("a\nb\n").toList) :=
  ⟨rfl, rfl, by decide⟩

/-- C6 (amended): for a file with `N` lines, the edit tool fails cleanly
(returns an error result, and the source returns before any write, so
the file is unchanged) exactly when `start_line < 1`, `end_line <
start_line`, or `start_line > N + 1`; an `end_line` beyond EOF is
instead clamped to `N` and the edit succeeds; every successful edit —
in particular one editing up to and including line `N` — preserves the
trailing newline. -/
theorem C6_edit_range_behaviour (text : Str) (start endl : Int) (new_text : Str) :
    (start < 1 ∨ endl < start ∨ ((splitlines text).length : Int) + 1 < start →
      ∃ e, edit_execute text start endl new_text = .error e) ∧
    (¬ (start < 1 ∨ endl < start ∨ ((splitlines text).length : Int) + 1 < start) →
      ∃ out, edit_execute text start endl new_text = .ok out ∧
        (endsWithNewline text = true → endsWithNewline out = true)) := by
  constructor
  · intro h
    exact ⟨_, by rw [edit_execute, if_pos h]⟩
  · intro h
    refine ⟨_, by rw [edit_execute, if_neg h], ?_⟩
    intro hnl
    have hnl2 : text.getLast? = some '\n' := of_decide_eq_true hnl
    simp [endsWithNewline, hnl2]

/-- Witness for C6: a start line beyond `N + 1` fails; editing up to and
including line `N` succeeds and keeps the trailing newline. -/
theorem C6_witness :
    (∃ e, edit_execute (("a\n").toList) 3 3 (("z").toList) = .error e) ∧
    (∃ out, edit_execute (("a\nb\n").toList) 2 2 (("B").toList) = .ok out ∧
      (endsWithNewline (("a\nb\n").toList) = true → endsWithNewline out = true)) :=
  ⟨(C6_edit_range_behaviour (("a\n").toList) 3 3 (("z").toList)).1 (by decide),
   (C6_edit_range_behaviour (("a\nb\n").toList) 2 2 (("B").toList)).2 (by decide)⟩

theorem nondecreasingByFirst_iff (l : List (Int × Int)) :
    nondecreasingByFirst l = true ↔ List.Chain' (fun a b : Int × Int => a.1 ≤ b.1) l := by
  induction l with
  | nil => simp [nondecreasingByFirst]
  | cons a t ih =>
    cases t with
    | nil => simp [nondecreasingByFirst]
    | cons b t2 =>
      simp only [nondecreasingByFirst, Bool.and_eq_true, decide_eq_true_eq,
        List.chain'_cons] at *
      rw [ih]

theorem noConsecutiveOverlap_iff (l : List (Int × Int)) :
    noConsecutiveOverlap l = true ↔ List.Chain' (fun a b : Int × Int => a.2 < b.1) l := by
  induction l with
  | nil => simp [noConsecutiveOverlap]
  | cons a t ih =>
    cases t with
    | nil => simp [noConsecutiveOverlap]
    | cons b t2 =>
      simp only [noConsecutiveOverlap, Bool.and_eq_true, decide_eq_true_eq,
        List.chain'_cons] at *
      rw [ih]

theorem pairwise_gap_of_chains (l : List (Int × Int))
    (hsorted : List.Chain' (fun a b : Int × Int => a.1 ≤ b.1) l)
    (hgap : List.Chain' (fun a b : Int × Int => a.2 < b.1) l) :
    List.Pairwise (fun a b : Int × Int => a.2 < b.1) l := by
  have hcomb : List.Chain' (fun a b : Int × Int => a.2 < b.1 ∧ a.1 ≤ b.1) l := by
    rw [List.chain'_iff_get] at hsorted hgap ⊢
    intro i hi
    exact ⟨hgap i hi, hsorted i hi⟩
  haveI : IsTrans (Int × Int) (fun a b : Int × Int => a.2 < b.1 ∧ a.1 ≤ b.1) := by
    refine ⟨fun a b c hab hbc => ⟨?_, le_trans hab.2 hbc.2⟩⟩
    calc a.2 < b.1 := hab.1
      _ ≤ c.1 := hbc.2
  exact (List.chain'_iff_pairwise.mp hcomb).imp (fun h => h.1)

/-- C7: an edits list that is not sorted by start line, or that contains
an overlapping pair of ranges, makes the multiedit tool fail during
validation — before any write, so the target file is unchanged (the
error carries the text at failure time, and it is the original text). -/
theorem C7_multiedit_validation_rejects (text : Str) (edits : List EditSpec)
    (h : ¬ List.Chain' (fun a b : Int × Int => a.1 ≤ b.1) (editRanges edits) ∨
         ¬ List.Pairwise (fun a b : Int × Int => ¬ rangeOverlap a b) (editRanges edits)) :
    ∃ msg, multiedit_execute text edits = .error (msg, text) := by
  have hne : edits.isEmpty = false := by
    cases edits with
    | nil =>
      exfalso
      rcases h with h1 | h2
      · exact h1 List.chain'_nil
      · exact h2 List.Pairwise.nil
    | cons a t => rfl
  by_cases hsort : nondecreasingByFirst (editRanges edits) = true
  · have hchain := (nondecreasingByFirst_iff _).mp hsort
    have hover : noConsecutiveOverlap (editRanges edits) = false := by
      rcases h with h1 | h2
      · exact absurd hchain h1
      · by_contra hc
        have hoc : noConsecutiveOverlap (editRanges edits) = true := by
          revert hc
          cases noConsecutiveOverlap (editRanges edits) <;> simp
        have hgap := (noConsecutiveOverlap_iff _).mp hoc
        refine h2 ((pairwise_gap_of_chains _ hchain hgap).imp ?_)
        intro a b hab hovl
        have h3 : b.1 ≤ max a.1 b.1 := le_max_right _ _
        have h4 : min a.2 b.2 ≤ a.2 := min_le_left _ _
        have := le_trans h3 (le_trans hovl h4)
        omega
    refine ⟨("edits must not overlap").toList, ?_⟩
    rw [multiedit_execute, if_neg (by rw [hne]; exact Bool.false_ne_true),
      if_neg (by rw [hsort]; simp), if_pos (by rw [hover]; simp)]
  · refine ⟨("edits must be sorted by start_line").toList, ?_⟩
    rw [multiedit_execute, if_neg (by rw [hne]; exact Bool.false_ne_true),
      if_pos (by simpa using hsort)]

/-- Witness for C7: an unsorted two-edit list is rejected with the file
text untouched. -/
theorem C7_witness :
    ∃ msg, multiedit_execute (("a\nb\n").toList)
      [EditSpec.mk 2 2 (("x").toList), EditSpec.mk 1 1 (("y").toList)]
      = .error (msg, ("a\nb\n").toList) :=
  C7_multiedit_validation_rejects (("a\nb\n").toList)
    [EditSpec.mk 2 2 (("x").toList), EditSpec.mk 1 1 (("y").toList)]
    (Or.inl (fun hch => by
      have h := (List.chain'_cons.mp hch).1
      norm_num at h))

/-- C8: appending a `deny` rule never allows a call that was previously
denied: for every glob matcher, configuration and (permission-class,
tool-name) pair, if `decide` returned `deny`, then after appending a
rule with decision `deny` (rules are scanned in order with the last
match winning) it still does not return `allow` — in fact it still
returns `deny`. -/
theorem C8_deny_rule_monotone (fnm : Str → Str → Bool) (cfg : PermissionConfig)
    (pk tn : Str) (r : PermissionRule)
    (hr : r.decision = .deny)
    (hprev : PermissionConfig.decide fnm cfg pk tn = .deny) :
    PermissionConfig.decide fnm { cfg with rules := cfg.rules ++ [r] } pk tn ≠ .allow := by
  have hstep : matchRules fnm (cfg.rules ++ [r]) pk tn
      = (if ("tool:").toList <+: r.rmatch then
          (if fnm tn (r.rmatch.drop 5) then some r.decision
           else matchRules fnm cfg.rules pk tn)
        else
          (if fnm pk r.rmatch || fnm tn r.rmatch then some r.decision
           else matchRules fnm cfg.rules pk tn)) := by
    rw [matchRules, List.foldl_append]
    rfl
  rw [PermissionConfig.decide] at hprev ⊢
  simp only at hprev ⊢
  rw [hstep]
  split_ifs with h1 h2 h3
  · rw [hr]; intro hc; cases hc
  · exact fun hc => by rw [hc] at hprev; cases hprev
  · rw [hr]; intro hc; cases hc
  · exact fun hc => by rw [hc] at hprev; cases hprev

/-- Witness for C8: tool `bash` is denied by the defaults; appending the
deny rule `tool:*` keeps it denied. -/
theorem C8_witness :
    PermissionConfig.decide fnmatchB
      { defaults := fun k => if k = ("bash").toList then some Decision.deny else none,
        rules := [] ++ [PermissionRule.mk (("tool:*").toList) Decision.deny] }
      (("bash").toList) (("bash").toList) ≠ .allow :=
  C8_deny_rule_monotone fnmatchB
    { defaults := fun k => if k = ("bash").toList then some Decision.deny else none,
      rules := [] }
    (("bash").toList) (("bash").toList)
    (PermissionRule.mk (("tool:*").toList) Decision.deny) rfl (by decide)

/-- C9: every path string a filesystem tool resolves through
`resolve_path` either yields a path lying within `cwd` (the resolved cwd
components are a prefix of the result) or fails with the path-escape
error — in particular a relative path escaping `cwd` through `..`
components, or an absolute path outside `cwd`, is rejected with that
error. -/
theorem C9_resolve_path_within_or_escape :
    (∀ (cwd : List Str) (path_str : Str),
      (∃ p, resolve_path cwd path_str = .ok p ∧ normalizeComponents cwd <+: p) ∨
      resolve_path cwd path_str
        = .error ((("Path escapes working directory: ").toList) ++ path_str)) ∧
    resolve_path [("home").toList, ("proj").toList] (("../x").toList)
      = .error ((("Path escapes working directory: ").toList) ++ ("../x").toList) ∧
    resolve_path [("home").toList, ("proj").toList] (("/etc/passwd").toList)
      = .error ((("Path escapes working directory: ").toList) ++ ("/etc/passwd").toList) := by
  refine ⟨?_, rfl, rfl⟩
  intro cwd path_str
  rw [resolve_path]
  split
  all_goals split
  all_goals first
    | (rename_i h; exact Or.inl ⟨_, rfl, h⟩)
    | exact Or.inr rfl

/-- C10: a line that is blank or fails to parse as a JSON message is
silently skipped by the `SessionStore.open` line loop wherever it occurs
in the file: loading the lines with the bad line spliced in anywhere
yields exactly the same messages, in the same order, as loading without
it. -/
theorem C10_corrupt_line_skipped (parse : Str → Option Message)
    (pre post : List Str) (bad : Str)
    (h : pyStrip bad = [] ∨ parse bad = none) :
    loadSessionLines parse (pre ++ bad :: post) = loadSessionLines parse (pre ++ post) := by
  rw [loadSessionLines, loadSessionLines, List.filterMap_append, List.filterMap_append,
    List.filterMap_cons]
  rcases h with h | h
  · rw [if_pos h]
  · by_cases hb : pyStrip bad = []
    · rw [if_pos hb]
    · rw [if_neg hb, h]

/-- Witness for C10: an unparsable line between two valid lines is
skipped and the surrounding lines still load, in order. -/
theorem C10_witness :
    loadSessionLines
      (fun l => if l = ("ok").toList then some ({ role := Role.user } : Message) else none)
      [("ok").toList, ("corrupt").toList, ("ok").toList]
      = loadSessionLines
      (fun l => if l = ("ok").toList then some ({ role := Role.user } : Message) else none)
      [("ok").toList, ("ok").toList] :=
  C10_corrupt_line_skipped
    (fun l => if l = ("ok").toList then some ({ role := Role.user } : Message) else none)
    [("ok").toList] [("ok").toList] (("corrupt").toList) (Or.inr (by decide))

/-- C4 counterexample: with `max_messages = 3` and a session of one
system message followed by three user messages, the hard cap counts the
kept system message against the budget, so the output is
`[system, u2, u3]` and the last 3 non-summary messages of the original
(`[u1, u2, u3]`) are NOT all contained in the output. -/
theorem C4_counterexample :
    ¬ List.Sublist
      (listTakeRight c4Policy.max_messages (c4Msgs.filter (fun m => ! isSummaryMsg m)))
      ((build_prompt_messages true none none none (fun _ => []) c4Policy c4Msgs).1) := by
  decide

theorem listTakeRight_sublist (n : Nat) (l : List α) :
    List.Sublist (listTakeRight n l) l :=
  List.drop_sublist _ _

theorem listTakeRight_zero (l : List α) : listTakeRight 0 l = [] := by
  simp [listTakeRight]

theorem listTakeRight_suffix (n : Nat) (l : List α) : listTakeRight n l <:+ l :=
  List.drop_suffix _ _

theorem listTakeRight_of_suffix (k : Nat) (l1 l2 : List α)
    (h : l1 <:+ l2) (hk : k ≤ l1.length) :
    listTakeRight k l1 = listTakeRight k l2 := by
  obtain ⟨t, rfl⟩ := h
  rw [listTakeRight, listTakeRight, List.length_append]
  rw [show t.length + l1.length - k = t.length + (l1.length - k) by omega]
  rw [List.drop_append]

theorem pySliceFrom_suffix (i : Int) (l : List α) : pySliceFrom i l <:+ l := by
  rw [pySliceFrom]
  split
  · exact List.drop_suffix _ _
  · exact List.drop_suffix _ _

theorem pySliceFrom_sub_neg (a b : Nat) (l : List α) (h : a < b) :
    pySliceFrom ((a : Int) - (b : Int)) l = listTakeRight (b - a) l := by
  rw [pySliceFrom, if_pos (by omega)]
  congr 1
  omega

theorem truncMsg_role (p : CompactionPolicy) (m : Message) :
    (truncMsg p m).role = m.role := by
  rw [truncMsg]
  rcases hm : m.content with _ | c
  · rfl
  · dsimp only
    split <;> split <;> rfl

theorem isSystemB_truncMsg (p : CompactionPolicy) (m : Message) :
    isSystemB (truncMsg p m) = isSystemB m := by
  rw [isSystemB, isSystemB, truncMsg_role]

theorem nonSystemMsgs_map_truncMsg (p : CompactionPolicy) (l : List Message) :
    nonSystemMsgs (l.map (truncMsg p)) = (nonSystemMsgs l).map (truncMsg p) := by
  rw [nonSystemMsgs, nonSystemMsgs, List.filter_map]
  congr 1
  apply List.filter_congr
  intro m _
  simp [isSystemB_truncMsg]

theorem systemCount_map_truncMsg (p : CompactionPolicy) (l : List Message) :
    systemCount (l.map (truncMsg p)) = systemCount l := by
  rw [systemCount, systemCount, ← List.countP_eq_length_filter, ← List.countP_eq_length_filter,
    List.countP_map]
  apply List.countP_congr
  intro m _
  simp [Function.comp, isSystemB_truncMsg]

theorem nonSystemMsgs_cons_system (m : Message) (h : isSystemB m = true) (l : List Message) :
    nonSystemMsgs (m :: l) = nonSystemMsgs l := by
  simp [nonSystemMsgs, h]

theorem nonSystemMsgs_stagePrepend (e : Bool) (sk rt ap : Option Str) (msgs : List Message) :
    nonSystemMsgs (stagePrepend e sk rt ap msgs) = nonSystemMsgs msgs := by
  unfold stagePrepend
  rcases ap with _ | a <;> rcases rt with _ | r <;> rcases sk with _ | s <;>
    cases e <;> dsimp only <;> split_ifs <;>
    simp [nonSystemMsgs_cons_system, isSystemB]

theorem stageSummarize_cases (su : List Message → Str) (p : CompactionPolicy)
    (msgs : List Message) :
    (stageSummarize su p msgs).1 = msgs ∨
    (∃ nsum : Message, isSystemB nsum = true ∧
      (stageSummarize su p msgs).1 = nsum :: listTakeRight p.max_messages msgs ∧
      p.max_messages < msgs.length ∧ 1 ≤ p.max_messages) := by
  by_cases h1 : p.summarize_when_over ≤ msgs.length
  case neg =>
    left
    rw [stageSummarize, if_neg h1]
  case pos =>
    by_cases h2 : 8 ≤ ((pySliceTo (-(p.max_messages : Int)) msgs).filter
        (fun m => ! isSummaryMsg m)).length
    case neg =>
      left
      rw [stageSummarize, if_pos h1]
      dsimp only
      rw [if_neg h2]
    case pos =>
      right
      have hmm : 1 ≤ p.max_messages := by
        by_contra hc
        have h0 : p.max_messages = 0 := by omega
        rw [h0] at h2
        simp [pySliceTo] at h2
      have habs : (-((p.max_messages : Nat) : Int)).natAbs = p.max_messages := by omega
      have hneg : -((p.max_messages : Nat) : Int) < 0 := by omega
      have hlen : p.max_messages < msgs.length := by
        rw [pySliceTo, if_pos hneg, habs] at h2
        have hlen2 : (listDropRight p.max_messages msgs).length
            = msgs.length - p.max_messages := by
          simp [listDropRight, List.length_take]
        have hfle := List.length_filter_le (fun m => ! isSummaryMsg m)
          (listDropRight p.max_messages msgs)
        omega
      have hsl : pySliceFrom (-((p.max_messages : Nat) : Int)) msgs
          = listTakeRight p.max_messages msgs := by
        rw [pySliceFrom, if_pos hneg, habs]
      have hres : (stageSummarize su p msgs).1
          = ({ role := .system, name := some SUMMARY_NAME,
               content := some (su ((pySliceTo (-(p.max_messages : Int)) msgs).filter
                 (fun m => ! isSummaryMsg m))) } : Message)
            :: pySliceFrom (-(p.max_messages : Int)) msgs := by
        rw [stageSummarize, if_pos h1]
        dsimp only
        rw [if_pos h2]
      exact ⟨{ role := .system, name := some SUMMARY_NAME,
               content := some (su ((pySliceTo (-(p.max_messages : Int)) msgs).filter
                 (fun m => ! isSummaryMsg m))) }, rfl, by rw [hres, hsl], hlen, hmm⟩

theorem stageCap_of_lt (p : CompactionPolicy) (msgs : List Message)
    (h : p.max_messages < msgs.length) :
    stageCap p msgs = systemMsgs msgs
      ++ pySliceFrom (((systemMsgs msgs).length : Int) - (p.max_messages : Int))
          (nonSystemMsgs msgs) := by
  rw [stageCap, if_pos h]
  rfl

theorem stageCap_of_ge (p : CompactionPolicy) (msgs : List Message)
    (h : ¬ p.max_messages < msgs.length) :
    stageCap p msgs = msgs := by
  rw [stageCap, if_neg h]

theorem mem_nonSystemMsgs (m : Message) (l : List Message) (h : m ∈ nonSystemMsgs l) :
    isSystemB m = false := by
  rw [nonSystemMsgs] at h
  have := (List.mem_filter.mp h).2
  simpa using this

theorem nonSystemMsgs_sysAppend (msgs X : List Message)
    (hX : ∀ m ∈ X, isSystemB m = false) :
    nonSystemMsgs (systemMsgs msgs ++ X) = X := by
  rw [nonSystemMsgs, List.filter_append]
  have h1 : (systemMsgs msgs).filter (fun m => ! isSystemB m) = [] := by
    rw [List.filter_eq_nil_iff]
    intro a ha
    rw [systemMsgs] at ha
    have := (List.mem_filter.mp ha).2
    simp [this]
  have h2 : X.filter (fun m => ! isSystemB m) = X := by
    rw [List.filter_eq_self]
    intro a ha
    simp [hX a ha]
  rw [h1, h2, List.nil_append]

theorem systemCount_sysAppend (msgs X : List Message)
    (hX : ∀ m ∈ X, isSystemB m = false) :
    systemCount (systemMsgs msgs ++ X) = (systemMsgs msgs).length := by
  rw [systemCount, List.filter_append]
  have h1 : (systemMsgs msgs).filter isSystemB = systemMsgs msgs := by
    rw [List.filter_eq_self]
    intro a ha
    rw [systemMsgs] at ha
    exact (List.mem_filter.mp ha).2
  have h2 : X.filter isSystemB = [] := by
    rw [List.filter_eq_nil_iff]
    intro a ha
    simp [hX a ha]
  rw [h1, h2]
  simp

theorem length_split_system (l : List Message) :
    l.length = systemCount l + (nonSystemMsgs l).length := by
  rw [systemCount, nonSystemMsgs, ← List.countP_eq_length_filter, ← List.countP_eq_length_filter]
  rw [List.length_eq_countP_add_countP isSystemB]
  congr 1
  apply List.countP_congr
  intro a _
  cases h : isSystemB a <;> simp [h]

theorem C4_core (su : List Message → Str) (p : CompactionPolicy) (m1 : List Message) :
    List.Sublist
      (listTakeRight (p.max_messages - systemCount (stageCap p (stageSummarize su p m1).1))
        (nonSystemMsgs m1))
      (nonSystemMsgs (stageCap p (stageSummarize su p m1).1)) := by
  set m2 : List Message := (stageSummarize su p m1).1 with hm2def
  rcases stageSummarize_cases su p m1 with hsum | ⟨nsum, hsys, hshape, hlen, hmm1⟩
  · rw [← hm2def] at hsum
    by_cases hcap : p.max_messages < m2.length
    · have h3 := stageCap_of_lt p m2 hcap
      have hXmem : ∀ m ∈ pySliceFrom (((systemMsgs m2).length : Int) - (p.max_messages : Int))
          (nonSystemMsgs m2), isSystemB m = false :=
        fun m hm => mem_nonSystemMsgs m m2 ((pySliceFrom_suffix _ _).sublist.subset hm)
      have hnsm3 := nonSystemMsgs_sysAppend m2 _ hXmem
      have hSm3 := systemCount_sysAppend m2 _ hXmem
      rw [h3, hnsm3, hSm3]
      by_cases hS2lt : (systemMsgs m2).length < p.max_messages
      · rw [pySliceFrom_sub_neg _ _ _ hS2lt]
        have hns2 : nonSystemMsgs m2 = nonSystemMsgs m1 := by rw [hsum]
        rw [hns2]
      · have hk : p.max_messages - (systemMsgs m2).length = 0 := by omega
        rw [hk, listTakeRight_zero]
        exact List.nil_sublist _
    · have h3 := stageCap_of_ge p m2 hcap
      rw [h3, hsum]
      exact listTakeRight_sublist _ _
  · rw [← hm2def] at hshape
    have hko : nonSystemMsgs m2 = nonSystemMsgs (listTakeRight p.max_messages m1) := by
      rw [hshape]
      exact nonSystemMsgs_cons_system nsum hsys _
    have hko_suffix : nonSystemMsgs m2 <:+ nonSystemMsgs m1 := by
      rw [hko]
      exact (listTakeRight_suffix _ _).filter _
    have htr_len : (listTakeRight p.max_messages m1).length = p.max_messages := by
      rw [listTakeRight_length]
      omega
    have hm2len : m2.length = p.max_messages + 1 := by
      rw [hshape]
      simp [htr_len]
    have hcap : p.max_messages < m2.length := by omega
    have h3 := stageCap_of_lt p m2 hcap
    have hXmem : ∀ m ∈ pySliceFrom (((systemMsgs m2).length : Int) - (p.max_messages : Int))
        (nonSystemMsgs m2), isSystemB m = false :=
      fun m hm => mem_nonSystemMsgs m m2 ((pySliceFrom_suffix _ _).sublist.subset hm)
    have hnsm3 := nonSystemMsgs_sysAppend m2 _ hXmem
    have hSm3 := systemCount_sysAppend m2 _ hXmem
    rw [h3, hnsm3, hSm3]
    by_cases hS2lt : (systemMsgs m2).length < p.max_messages
    · rw [pySliceFrom_sub_neg _ _ _ hS2lt]
      have hsplit := length_split_system m2
      have hS2eq : systemCount m2 = (systemMsgs m2).length := rfl
      have hklen : p.max_messages - (systemMsgs m2).length ≤ (nonSystemMsgs m2).length := by
        omega
      rw [listTakeRight_of_suffix _ _ _ hko_suffix hklen]
    · have hk : p.max_messages - (systemMsgs m2).length = 0 := by omega
      rw [hk, listTakeRight_zero]
      exact List.nil_sublist _

/-- C4 (amended): after compaction by the prompt builder, with
`S` the number of system-role messages in the output, the last
`policy.max_messages - S` non-system messages of the original list are
all contained in the output, in their original order, each possibly
head+tail-truncated to the per-message caps.  (The original claim's
count `policy.max_messages` fails because the hard cap charges kept
system messages — including a freshly created summary — against the
budget, and summarization may fold older messages away: see the
counterexample.) -/
theorem C4_compaction_keeps_nonsystem_tail (ensure_skill : Bool)
    (skill rules_text agent_prompt : Option Str) (summarizer : List Message → Str)
    (policy : CompactionPolicy) (msgs0 : List Message) :
    List.Sublist
      ((listTakeRight
          (policy.max_messages - systemCount
            (build_prompt_messages ensure_skill skill rules_text agent_prompt
              summarizer policy msgs0).1)
          (nonSystemMsgs msgs0)).map (truncMsg policy))
      (build_prompt_messages ensure_skill skill rules_text agent_prompt
        summarizer policy msgs0).1 := by
  have hcore := C4_core summarizer policy
    (stagePrepend ensure_skill skill rules_text agent_prompt msgs0)
  rw [nonSystemMsgs_stagePrepend] at hcore
  have hbuild : (build_prompt_messages ensure_skill skill rules_text agent_prompt
      summarizer policy msgs0).1
      = (stageCap policy (stageSummarize summarizer policy
          (stagePrepend ensure_skill skill rules_text agent_prompt msgs0)).1).map
        (truncMsg policy) := rfl
  rw [hbuild, systemCount_map_truncMsg]
  have hmap := hcore.map (truncMsg policy)
  rw [← nonSystemMsgs_map_truncMsg] at hmap
  refine hmap.trans ?_
  rw [nonSystemMsgs]
  exact List.filter_sublist _
